import Mathlib

/-!
Verification of the Netflix-catalog dashboard (src/app.py, src/utils/helpers.py).

Text cells are modelled as `List Char` (the character sequence of a Python
string), so that every operation is a structural, kernel-computable function.
Pandas library calls that the source relies on (`read_csv`, `to_datetime`,
`to_numeric`, `fillna`, `isin`, `str.contains`, `value_counts`, `groupby`,
`pivot`, `head`) are given explicit executable models, each documented at its
definition.
-/

/-- A Python string, as its sequence of characters. -/
abbrev Str := List Char

/-- Python `s.split(sep)` for a one-character separator: `[] ↦ [[]]`,
and each occurrence of `sep` starts a new (possibly empty) piece. -/
def splitOnChar (sep : Char) : Str → List Str
  | [] => [[]]
  | c :: cs =>
    match splitOnChar sep cs with
    | [] => [[c]]
    | r :: rs => if c = sep then [] :: r :: rs else (c :: r) :: rs

/-- Python `s.strip()`: drop whitespace from both ends. -/
def trimChars (l : Str) : Str :=
  ((l.dropWhile Char.isWhitespace).reverse.dropWhile Char.isWhitespace).reverse

/-- Python `s.lower()` (as used by `str.contains(..., case=False)`). -/
def lowerChars (l : Str) : Str := l.map Char.toLower

/-- The numeric value of a decimal digit character, if it is one. -/
def digitVal? (c : Char) : Option Nat :=
  if c.isDigit then some (c.toNat - '0'.toNat) else none

/-- Parse a nonempty all-digit string as a natural number, else `none`. -/
def parseNatChars (l : Str) : Option Nat :=
  if l.isEmpty then none
  else l.foldl (fun acc c => acc.bind fun n => (digitVal? c).map fun d => n * 10 + d) (some 0)

/-- A calendar date, the payload of a parsed `date_added` cell. -/
structure Date where
  year : Nat
  month : Nat
  day : Nat
deriving DecidableEq

/-- English month name to month number, as the dataset's date format uses. -/
def monthNum (s : Str) : Option Nat :=
  if s = "January".data then some 1
  else if s = "February".data then some 2
  else if s = "March".data then some 3
  else if s = "April".data then some 4
  else if s = "May".data then some 5
  else if s = "June".data then some 6
  else if s = "July".data then some 7
  else if s = "August".data then some 8
  else if s = "September".data then some 9
  else if s = "October".data then some 10
  else if s = "November".data then some 11
  else if s = "December".data then some 12
  else none

/-- Models `pd.to_datetime(cell, errors='coerce')` on the dataset's
`"Month D, YYYY"` date format: an unparsable cell coerces to `none` (NaT)
instead of raising. -/
def parseDate (s : Str) : Option Date :=
  match (splitOnChar ',' s).map trimChars with
  | [md, y] =>
    match splitOnChar ' ' md with
    | [m, d] =>
      (monthNum m).bind fun mn =>
        (parseNatChars d).bind fun dn =>
          (parseNatChars y).map fun yn => ⟨yn, mn, dn⟩
    | _ => none
  | _ => none

/-- Models `pd.to_numeric(cell, errors='coerce')` for the `release_year`
column: a nonnegative integer string parses, anything else coerces to NaN
(`none`). -/
def toNumericInt? (s : Str) : Option Int :=
  (parseNatChars (trimChars s)).map Int.ofNat

/-- One record as produced by `pd.read_csv("netflix_titles.csv")`:
a missing cell is `none` (NaN). -/
structure RawRow where
  title : Option Str
  type : Str
  director : Option Str
  cast : Option Str
  country : Option Str
  date_added : Option Str
  release_year : Option Str
  rating : Option Str
  duration : Option Str
  listed_in : Option Str
deriving DecidableEq

/-- One cleaned catalog row, after the cleaning block of `load_data`
(src/app.py lines 44-53). -/
structure Row where
  title : Option Str
  type : Str
  director : Option Str
  cast : Option Str
  country : Str
  date_added : Option Date
  release_year : Option Int
  rating : Str
  duration : Str
  listed_in : Option Str
  year_added : Option Nat
  month_added : Option Nat
deriving DecidableEq

/-- The cleaning block of `load_data` (src/app.py lines 44-53) applied to one
record: coerce `date_added` and `release_year`, derive `year_added` and
`month_added` from the coerced `date_added`, and fill missing `country`,
`rating`, `duration` with their sentinels. -/
def cleanRow (r : RawRow) : Row :=
  let d := r.date_added.bind parseDate
  { title := r.title
    type := r.type
    director := r.director
    cast := r.cast
    country := r.country.getD "Unknown".data
    date_added := d
    release_year := r.release_year.bind toNumericInt?
    rating := r.rating.getD "Not Rated".data
    duration := r.duration.getD "Unknown".data
    listed_in := r.listed_in
    year_added := d.map Date.year
    month_added := d.map Date.month }

/-- The table a successful `pd.read_csv` + cleaning produces: every input
record is cleaned and kept, none dropped. -/
def loadedRows (raws : List RawRow) : List Row := raws.map cleanRow

/-- Outcome of the attempted `pd.read_csv("netflix_titles.csv")`:
the parsed records, or `fileNotFound` (Python `FileNotFoundError`), or
`otherError` (any other read/parse exception, e.g. `PermissionError`). -/
inductive ReadError
  | fileNotFound
  | otherError
deriving DecidableEq

/-- What `load_data` hands back: the dataframe plus whether `st.error`
was called. -/
structure LoadResult where
  rows : List Row
  errorShown : Bool
deriving DecidableEq

/-- `load_data` (src/app.py lines 40-58): `try: read_csv ... except
FileNotFoundError: st.error(...); return pd.DataFrame()`. Only
`FileNotFoundError` is caught; any other exception escapes the function. -/
def load_data (file : Except ReadError (List RawRow)) : Except ReadError LoadResult :=
  match file with
  | Except.ok raws => Except.ok ⟨loadedRows raws, false⟩
  | Except.error ReadError.fileNotFound => Except.ok ⟨[], true⟩
  | Except.error e => Except.error e

/-- Whether anything below the load runs (src/app.py lines 61-64:
`if df.empty: st.stop()`; an exception escaping `load_data` likewise aborts
the script run before any chart). -/
def downstreamRuns (file : Except ReadError (List RawRow)) : Bool :=
  match load_data file with
  | Except.ok res => !res.rows.isEmpty
  | Except.error _ => false

/-- The release-year slider test of the filter mask (src/app.py lines
100-101): `(df['release_year'] >= lo) & (df['release_year'] <= hi)`.
A NaN `release_year` compares `False` on both sides in pandas. -/
def yearInRange (ylo yhi : Int) : Option Int → Bool
  | some y => decide (ylo ≤ y) && decide (y ≤ yhi)
  | none => false

/-- `filtered_df` (src/app.py lines 97-102): rows whose `type` is in the
selected content types (`isin`), whose `rating` is in the selected ratings,
and whose `release_year` lies in the slider range. -/
def filtered_df (df : List Row) (content_type ratings : List Str) (ylo yhi : Int) : List Row :=
  df.filter fun r =>
    decide (r.type ∈ content_type) && decide (r.rating ∈ ratings) &&
      yearInRange ylo yhi r.release_year

/-- The per-cell tokenizer of `extract_top_items`
(src/utils/helpers.py lines 33-37): if the separator occurs, split on it and
strip each piece; otherwise one stripped token. -/
def cellTokens (sep : Char) (cell : Str) : List Str :=
  if (splitOnChar sep cell).length = 1 then [trimChars cell]
  else (splitOnChar sep cell).map trimChars

/-- The `all_items` accumulator of `extract_top_items`: tokens of every
non-absent cell of the series, in series order (`series.dropna()`). -/
def allItems (sep : Char) (series : List (Option Str)) : List Str :=
  (series.filterMap id).flatMap (cellTokens sep)

/-- First occurrence of each distinct value, in encounter order, skipping
values already seen. -/
def firstOcc {α : Type} [DecidableEq α] (seen : List α) : List α → List α
  | [] => []
  | x :: xs => if x ∈ seen then firstOcc seen xs else x :: firstOcc (x :: seen) xs

/-- Count-descending order on (token, count) pairs, the order
`pd.Series.value_counts` sorts its result by. -/
def countDescRel : (Str × Nat) → (Str × Nat) → Prop := fun a b => b.2 ≤ a.2

instance : DecidableRel countDescRel :=
  fun a b => inferInstanceAs (Decidable (b.2 ≤ a.2))

instance : IsTotal (Str × Nat) countDescRel :=
  ⟨fun a b => Nat.le_total b.2 a.2⟩

instance : IsTrans (Str × Nat) countDescRel :=
  ⟨fun _ _ _ h1 h2 => Nat.le_trans h2 h1⟩

/-- Models `pd.Series(items).value_counts()`: one `(value, count)` pair per
distinct value, sorted by count descending; equal counts keep
first-encounter order (a stable sort of the first-occurrence tally). -/
def value_counts (items : List Str) : List (Str × Nat) :=
  List.insertionSort countDescRel ((firstOcc [] items).map fun t => (t, items.count t))

/-- `extract_top_items` (src/utils/helpers.py lines 29-40):
`pd.Series(all_items).value_counts().head(top_n)`. -/
def extract_top_items (series : List (Option Str)) (top_n : Nat) (sep : Char) : List (Str × Nat) :=
  (value_counts (allItems sep series)).take top_n

/-- The inline genre accumulator of src/app.py lines 233-235: every
`listed_in` cell is split on commas and each piece stripped (no
separator-presence test). -/
def all_genres (view : List Row) : List Str :=
  ((view.map Row.listed_in).filterMap id).flatMap fun g => (splitOnChar ',' g).map trimChars

/-- `genre_counts` (src/app.py line 237):
`pd.Series(all_genres).value_counts().head(n)`. -/
def genre_counts (view : List Row) (n : Nat) : List (Str × Nat) :=
  (value_counts (all_genres view)).take n

/-- Contiguous-sublist test: literal substring containment. -/
def isInfixCheck (q : Str) : Str → Bool
  | [] => q.isEmpty
  | c :: t => q.isPrefixOf (c :: t) || isInfixCheck q t

/-- The metacharacters of Python `re` pattern syntax. -/
def reMetachars : List Char :=
  ['.', '^', '$', '*', '+', '?', '\x7b', '\x7d', '[', ']', '\\', '|', '(', ')']

/-- One token of the regex fragment the model covers: a literal character or
the any-character wildcard `.`. -/
inductive RegexTok
  | lit (c : Char)
  | dot
deriving DecidableEq

/-- Compile a pattern the way `str.contains` (default `regex=True`) hands it
to `re`: `.` becomes the wildcard, a non-metacharacter becomes a literal;
a pattern using any other metacharacter is outside the modelled fragment
(`none` — the program would give it full `re` semantics or raise). -/
def reTokens : Str → Option (List RegexTok)
  | [] => some []
  | c :: cs =>
    (reTokens cs).bind fun ts =>
      if c = '.' then some (RegexTok.dot :: ts)
      else if reMetachars.contains c then none
      else some (RegexTok.lit c :: ts)

/-- Whether one token matches one character, given the character comparison
(`.` matches any character but newline, as `re` without DOTALL). -/
def tokMatchesWith (eqf : Char → Char → Bool) : RegexTok → Char → Bool
  | RegexTok.lit a, c => eqf a c
  | RegexTok.dot, c => decide (c ≠ '\n')

/-- The token sequence matches at the start of the text. -/
def reMatchPrefixWith (eqf : Char → Char → Bool) : List RegexTok → Str → Bool
  | [], _ => true
  | _ :: _, [] => false
  | t :: ts, c :: cs => tokMatchesWith eqf t c && reMatchPrefixWith eqf ts cs

/-- `re.search`: the token sequence matches at some position of the text. -/
def reSearchWith (eqf : Char → Char → Bool) : List RegexTok → Str → Bool
  | toks, [] => reMatchPrefixWith eqf toks []
  | toks, c :: cs => reMatchPrefixWith eqf toks (c :: cs) || reSearchWith eqf toks cs

/-- Case-insensitive character comparison (`re.IGNORECASE`). -/
def charEqCI (a c : Char) : Bool := decide (a.toLower = c.toLower)

/-- Case-sensitive character comparison. -/
def charEqCS (a c : Char) : Bool := decide (a = c)

/-- Models `series.str.contains(q, case=False, na=False)` on one cell: a NaN
cell is `False`; otherwise the query is compiled as a regular expression
(default `regex=True`) and searched case-insensitively. -/
def str_contains_ci (cell : Option Str) (q : Str) : Bool :=
  match cell with
  | none => false
  | some s =>
    match reTokens q with
    | some toks => reSearchWith charEqCI toks s
    | none => false

/-- Models `series.str.contains(pat, na=False)` on one cell (case-sensitive,
as the genre/country filters use it), with the same regex compilation. -/
def str_contains_cs (cell : Option Str) (pat : Str) : Bool :=
  match cell with
  | none => false
  | some s =>
    match reTokens pat with
    | some toks => reSearchWith charEqCS toks s
    | none => false

/-- A query free of `re` metacharacters: `str.contains` treats it as a
literal substring. -/
def plainQuery (q : Str) : Bool := q.all fun c => !(reMetachars.contains c)

/-- A cell matches the free-text query: it is present and contains the query
as a case-insensitive substring. -/
def ciMatch (cell : Option Str) (q : Str) : Prop :=
  ∃ s, cell = some s ∧ List.IsInfix (lowerChars q) (lowerChars s)

/-- `detailed_df` (src/app.py lines 545-557): on top of the filtered view,
an optional case-insensitive search over title/director/cast (skipped when
the query is empty — Python string truthiness), then optional
substring filters on `listed_in` and `country` (skipped on "All"). -/
def detailed_df (view : List Row) (search_query selected_genre selected_country : Str) :
    List Row :=
  let d1 :=
    if search_query.isEmpty then view
    else
      view.filter fun r =>
        str_contains_ci r.title search_query || str_contains_ci r.director search_query ||
          str_contains_ci r.cast search_query
  let d2 :=
    if selected_genre = "All".data then d1
    else d1.filter fun r => str_contains_cs r.listed_in selected_genre
  if selected_country = "All".data then d2
  else d2.filter fun r => str_contains_cs (some r.country) selected_country

/-- The `(year_added, month_added)` keys of
`filtered_df.groupby(['year_added', 'month_added'])` (src/app.py line 479):
pandas drops rows whose grouping key contains NaN. -/
def presentPairs (view : List Row) : List (Nat × Nat) :=
  view.filterMap fun r =>
    match r.year_added, r.month_added with
    | some y, some m => some (y, m)
    | _, _ => none

/-- The distinct `year_added` values appearing in the groupby keys: the
column domain of the pivot. -/
def yearsOf (view : List Row) : List Nat :=
  firstOcc [] ((presentPairs view).map Prod.fst)

/-- The distinct `month_added` values appearing in the groupby keys: the
index domain of the pivot. -/
def monthsOf (view : List Row) : List Nat :=
  firstOcc [] ((presentPairs view).map Prod.snd)

/-- The groupby size of one `(year, month)` combination. -/
def comboCount (view : List Row) (y m : Nat) : Nat :=
  (presentPairs view).count (y, m)

/-- One cell of `heatmap_data.pivot(...)` before `fillna`: the group size if
the combination occurs in the data, else NaN (`none`). -/
def pivotCell (view : List Row) (m y : Nat) : Option Nat :=
  if (y, m) ∈ presentPairs view then some (comboCount view y m) else none

/-- `heatmap_pivot` (src/app.py line 480): the month × year grid over the
full cross product of both observed domains, with `.fillna(0)` turning the
absent combinations into explicit zeros. -/
def heatmap_pivot (view : List Row) : List (Nat × List (Nat × Nat)) :=
  (monthsOf view).map fun m =>
    (m, (yearsOf view).map fun y => (y, (pivotCell view m y).getD 0))

/-- Read one cell of the pivot table by month then year. -/
def pivotLookup (view : List Row) (m y : Nat) : Option Nat :=
  (List.lookup m (heatmap_pivot view)).bind fun rowvals => List.lookup y rowvals

/-- The country accumulator of src/app.py lines 340-343: every country cell
(the column is sentinel-filled, so never NaN) is skipped when it equals
"Unknown", otherwise split on commas and stripped. -/
def all_countries (view : List Row) : List Str :=
  (view.map Row.country).flatMap fun c =>
    if c ≠ "Unknown".data then (splitOnChar ',' c).map trimChars else []

/-- `country_counts` (src/app.py line 345):
`pd.Series(all_countries).value_counts().head(20)`. -/
def country_counts (view : List Row) : List (Str × Nat) :=
  (value_counts (all_countries view)).take 20

/-- The detail cards loop (src/app.py line 574): `detailed_df.head(100)`. -/
def displayedCards (d : List Row) : List Row := d.take 100

/-- The "Filtered Results" / "Displaying N titles" metrics
(src/app.py lines 562 and 571): `len(detailed_df)`. -/
def filteredResultsMetric (d : List Row) : Nat := d.length

/-- A cleaned row with every optional field absent and every sentinel-filled
field at its sentinel; concrete test rows below override single fields. -/
def baseRow : Row :=
  { title := none
    type := "Movie".data
    director := none
    cast := none
    country := "Unknown".data
    date_added := none
    release_year := none
    rating := "Not Rated".data
    duration := "Unknown".data
    listed_in := none
    year_added := none
    month_added := none }

/-- A raw record with every cell absent except `type`. -/
def baseRaw : RawRow :=
  { title := none
    type := "Movie".data
    director := none
    cast := none
    country := none
    date_added := none
    release_year := none
    rating := none
    duration := none
    listed_in := none }

/-- Concrete rows for the year-range example. -/
def row2005 : Row := { baseRow with release_year := some 2005 }

def row2015 : Row := { baseRow with release_year := some 2015 }

def row2021 : Row := { baseRow with release_year := some 2021 }

/-- A raw record whose `date_added` cell parses. -/
def rawSept : RawRow := { baseRaw with date_added := some "September 25, 2021".data }

/-- A raw record whose `date_added` cell is unparsable and coerces to NaT. -/
def rawGarbage : RawRow := { baseRaw with date_added := some "garbage".data }

/-- A row whose cast matches the query "smith" case-insensitively. -/
def rowSmith : Row :=
  { baseRow with title := some "Concussion".data, cast := some "John Smith, Jane Doe".data }

/-- Rows giving the pivot a (month, year) combination with no data. -/
def rowJan2020 : Row := { baseRow with year_added := some 2020, month_added := some 1 }

def rowFeb2021 : Row := { baseRow with year_added := some 2021, month_added := some 2 }

/-- A row with a real country cell. -/
def rowIndia : Row := { baseRow with country := "India".data }

/-! ### Supporting lemmas -/

theorem yearInRange_eq_true (ylo yhi : Int) (ry : Option Int) :
    yearInRange ylo yhi ry = true ↔ ∃ y, ry = some y ∧ ylo ≤ y ∧ y ≤ yhi := by
  cases ry with
  | none => simp [yearInRange]
  | some y => simp [yearInRange]

theorem mem_filtered_df (df : List Row) (ct rt : List Str) (ylo yhi : Int) (r : Row) :
    r ∈ filtered_df df ct rt ylo yhi ↔
      r ∈ df ∧ r.type ∈ ct ∧ r.rating ∈ rt ∧
        ∃ y, r.release_year = some y ∧ ylo ≤ y ∧ y ≤ yhi := by
  simp [filtered_df, List.mem_filter, yearInRange_eq_true, and_assoc]

theorem value_counts_sorted (items : List Str) :
    (value_counts items).Sorted countDescRel :=
  List.sorted_insertionSort countDescRel _

theorem value_counts_perm (items : List Str) :
    List.Perm (value_counts items) ((firstOcc [] items).map fun t => (t, items.count t)) :=
  List.perm_insertionSort countDescRel _

theorem value_counts_count (items : List Str) (p : Str × Nat) (hp : p ∈ value_counts items) :
    p.2 = items.count p.1 := by
  have h := (value_counts_perm items).mem_iff.mp hp
  rw [List.mem_map] at h
  obtain ⟨t, -, rfl⟩ := h
  rfl

theorem mem_firstOcc {α : Type} [DecidableEq α] :
    ∀ (l seen : List α) (x : α), x ∈ l → x ∉ seen → x ∈ firstOcc seen l := by
  intro l
  induction l with
  | nil => intro seen x hx _; cases hx
  | cons a as ih =>
    intro seen x hx hseen
    simp only [firstOcc]
    by_cases ha : a ∈ seen
    · rw [if_pos ha]
      rcases List.mem_cons.mp hx with rfl | hx2
      · exact absurd ha hseen
      · exact ih seen x hx2 hseen
    · rw [if_neg ha]
      rcases List.mem_cons.mp hx with rfl | hx2
      · exact List.mem_cons_self _ _
      · by_cases hxa : x = a
        · subst hxa; exact List.mem_cons_self _ _
        · exact List.mem_cons_of_mem _ (ih (a :: seen) x hx2 (by simp [hxa, hseen]))

theorem count_mem_value_counts (items : List Str) (t : Str) (ht : t ∈ items) :
    (t, items.count t) ∈ value_counts items := by
  apply (value_counts_perm items).mem_iff.mpr
  rw [List.mem_map]
  exact ⟨t, mem_firstOcc items [] t ht (List.not_mem_nil t), rfl⟩

theorem take_top_ge (items : List Str) (n : Nat) (t : Str) (ht : t ∈ items)
    (hout : (t, items.count t) ∉ (value_counts items).take n) :
    ∀ p ∈ (value_counts items).take n, items.count t ≤ p.2 := by
  intro p hp
  have hsort := value_counts_sorted items
  have hmem := count_mem_value_counts items t ht
  have hsplit : value_counts items =
      (value_counts items).take n ++ (value_counts items).drop n :=
    (List.take_append_drop n _).symm
  rw [hsplit] at hmem hsort
  rcases List.mem_append.mp hmem with h | h
  · exact absurd h hout
  · exact (List.pairwise_append.mp hsort).2.2 p hp _ h

theorem isInfixCheck_iff (q : Str) : ∀ s : Str, isInfixCheck q s = true ↔ List.IsInfix q s := by
  intro s
  induction s with
  | nil => simp [isInfixCheck, List.isEmpty_iff, List.infix_nil]
  | cons c t ih => simp [isInfixCheck, List.isPrefixOf_iff_prefix, ih, List.infix_cons_iff]

theorem lowerChars_cons (a : Char) (l : Str) :
    lowerChars (a :: l) = a.toLower :: lowerChars l := rfl

theorem reTokens_plain : ∀ q : Str, plainQuery q = true →
    reTokens q = some (q.map RegexTok.lit) := by
  intro q
  induction q with
  | nil => intro _; rfl
  | cons c cs ih =>
    intro h
    simp only [plainQuery, List.all_cons, Bool.and_eq_true] at h
    obtain ⟨h1, h2⟩ := h
    have hmem : c ∉ reMetachars := by simpa using h1
    have hdot : ¬(c = '.') := by
      intro hd
      rw [hd] at hmem
      exact hmem (by decide)
    simp only [reTokens]
    rw [ih h2]
    simp [hdot, hmem]

theorem reMatchPrefixWith_lit (q : Str) :
    ∀ s : Str, reMatchPrefixWith charEqCI (q.map RegexTok.lit) s =
      (lowerChars q).isPrefixOf (lowerChars s) := by
  induction q with
  | nil =>
    intro s
    cases s with
    | nil => rfl
    | cons c cs => rfl
  | cons a as ih =>
    intro s
    cases s with
    | nil => rfl
    | cons c cs =>
      rw [List.map_cons, lowerChars_cons, lowerChars_cons]
      simp only [reMatchPrefixWith, tokMatchesWith, charEqCI, List.isPrefixOf, ih cs]
      by_cases h : a.toLower = c.toLower
      · simp [h]
      · simp [h]

theorem reSearchWith_lit (q : Str) :
    ∀ s : Str, reSearchWith charEqCI (q.map RegexTok.lit) s =
      isInfixCheck (lowerChars q) (lowerChars s) := by
  intro s
  induction s with
  | nil =>
    cases q with
    | nil => rfl
    | cons a as => rfl
  | cons c cs ih =>
    rw [lowerChars_cons]
    simp only [reSearchWith, isInfixCheck, ih, reMatchPrefixWith_lit q (c :: cs),
      lowerChars_cons]

theorem str_contains_ci_plain (cell : Option Str) (q : Str) (hq : plainQuery q = true) :
    str_contains_ci cell q = true ↔ ciMatch cell q := by
  cases cell with
  | none => simp [str_contains_ci, ciMatch]
  | some s =>
    have ht := reTokens_plain q hq
    simp [str_contains_ci, ht, reSearchWith_lit, isInfixCheck_iff, ciMatch]

theorem mem_detailed_df_search (view : List Row) (q : Str) (hq : q ≠ [])
    (hplain : plainQuery q = true) (r : Row) :
    r ∈ detailed_df view q "All".data "All".data ↔
      r ∈ view ∧ (ciMatch r.title q ∨ ciMatch r.director q ∨ ciMatch r.cast q) := by
  have hq2 : q.isEmpty = false := by
    cases q with
    | nil => exact absurd rfl hq
    | cons a l => rfl
  simp [detailed_df, hq2, List.mem_filter, str_contains_ci_plain, hplain, or_assoc]

theorem lookup_map_self {β : Type} (f : Nat → β) :
    ∀ (xs : List Nat) (x : Nat), x ∈ xs →
      List.lookup x (xs.map fun a => (a, f a)) = some (f x) := by
  intro xs
  induction xs with
  | nil => intro x hx; cases hx
  | cons a as ih =>
    intro x hx
    by_cases hxa : x = a
    · subst hxa
      simp [List.lookup]
    · have hxas : x ∈ as := List.mem_of_ne_of_mem hxa hx
      have hb : (x == a) = false := beq_eq_false_iff_ne.mpr hxa
      simp [List.lookup, hb, ih x hxas]

theorem pivotLookup_eq (view : List Row) (m y : Nat) (hm : m ∈ monthsOf view)
    (hy : y ∈ yearsOf view) :
    pivotLookup view m y = some ((pivotCell view m y).getD 0) := by
  simp only [pivotLookup, heatmap_pivot]
  rw [lookup_map_self _ (monthsOf view) m hm]
  exact lookup_map_self _ (yearsOf view) y hy

/-! ### Claim theorems -/

/-- C1 counterexample: the aggregation does not discard empty tokens. On a
view whose single `listed_in` cell is "Drama, " the trailing separator
yields the empty token, which is tallied and returned, not dropped. -/
theorem extract_top_items_keeps_empty_token :
    extract_top_items [some "Drama, ".data] 3 ',' = [("Drama".data, 1), ([], 1)] := by
  decide

/-- C1 (amended): `extract_top_items` splits each non-absent cell on the
separator, trims each token, keeps empty tokens (tallied as the empty
string), tallies across the whole series, and returns at most `top_n` pairs
in count-descending order (ties in first-encounter order, as the stable
ordering of `value_counts`); every returned count is the token's tally over
the whole series, and every token left out of the result has a tally no
larger than any returned count. On the listed_in view
["Drama, Comedy", "Drama", "Action"] with top_n = 3, the result is Drama 2
first, then Comedy 1, then Action 1. -/
theorem extract_top_items_spec :
    (∀ (series : List (Option Str)) (top_n : Nat) (sep : Char),
        (extract_top_items series top_n sep).length ≤ top_n)
      ∧ (∀ (series : List (Option Str)) (top_n : Nat) (sep : Char),
          (extract_top_items series top_n sep).Sorted countDescRel)
      ∧ (∀ (series : List (Option Str)) (top_n : Nat) (sep : Char),
          ∀ p ∈ extract_top_items series top_n sep,
            p.2 = (allItems sep series).count p.1)
      ∧ (∀ (series : List (Option Str)) (top_n : Nat) (sep : Char) (t : Str),
          t ∈ allItems sep series →
            (t, (allItems sep series).count t) ∉ extract_top_items series top_n sep →
              ∀ p ∈ extract_top_items series top_n sep,
                (allItems sep series).count t ≤ p.2)
      ∧ extract_top_items
            [some "Drama, Comedy".data, some "Drama".data, some "Action".data] 3 ','
          = [("Drama".data, 2), ("Comedy".data, 1), ("Action".data, 1)] := by
  refine ⟨?_, ?_, ?_, ?_, by decide⟩
  · intro series n sep
    simp only [extract_top_items, List.length_take]
    exact min_le_left _ _
  · intro series n sep
    exact (value_counts_sorted (allItems sep series)).sublist (List.take_sublist _ _)
  · intro series n sep p hp
    exact value_counts_count _ p (List.mem_of_mem_take hp)
  · intro series n sep t ht hout
    exact take_top_ge (allItems sep series) n t ht hout

/-- Witness for C1: the returned count of "Drama" on the example view is its
tally over the whole series. -/
theorem extract_top_items_spec_witness :
    (("Drama".data, 2) : Str × Nat).2 =
      (allItems ','
          [some "Drama, Comedy".data, some "Drama".data, some "Action".data]).count
        (("Drama".data, 2) : Str × Nat).1 :=
  extract_top_items_spec.2.2.1
    [some "Drama, Comedy".data, some "Drama".data, some "Action".data] 3 ','
    ("Drama".data, 2) (by decide)

/-- C2 counterexample: an unreadable-but-present file (any read exception
other than `FileNotFoundError`) is not caught by `load_data`, so the load
does not return the empty-catalog signal — the exception propagates. -/
theorem load_unreadable_not_empty_catalog :
    load_data (Except.error ReadError.otherError) = Except.error ReadError.otherError
      ∧ load_data (Except.error ReadError.otherError) ≠
          Except.ok { rows := [], errorShown := true } := by
  refine ⟨rfl, fun h => ?_⟩
  simp [load_data] at h

/-- C2 (amended): when the source file is absent (`FileNotFoundError`),
`load_data` returns an empty catalog with the fatal message shown and
nothing downstream runs; when the file is present but unreadable the read
exception escapes `load_data` (no catalog is returned) and downstream
processing still does not run; a successful load always returns the
complete cleaned table, never a partial one. -/
theorem load_failure_halts_amended :
    load_data (Except.error ReadError.fileNotFound) =
        Except.ok { rows := [], errorShown := true }
      ∧ downstreamRuns (Except.error ReadError.fileNotFound) = false
      ∧ downstreamRuns (Except.error ReadError.otherError) = false
      ∧ (∀ raws, load_data (Except.ok raws) =
          Except.ok { rows := loadedRows raws, errorShown := false })
      ∧ (∀ raws, (loadedRows raws).length = raws.length) := by
  refine ⟨rfl, rfl, rfl, fun raws => rfl, fun raws => ?_⟩
  simp [loadedRows]

/-- C3: the filter keeps exactly the rows passing the type and rating
selections whose `release_year` is present and inside the inclusive slider
bounds — a row with absent `release_year` never passes; on the catalog with
release years 2005, 2015, 2021 and absent, the range [2010, 2021] keeps
exactly the 2015 and 2021 rows. -/
theorem filtered_df_year_range_spec :
    (∀ (df : List Row) (ct rt : List Str) (ylo yhi : Int) (r : Row),
        r ∈ filtered_df df ct rt ylo yhi ↔
          r ∈ df ∧ r.type ∈ ct ∧ r.rating ∈ rt ∧
            ∃ y, r.release_year = some y ∧ ylo ≤ y ∧ y ≤ yhi)
      ∧ filtered_df [row2005, row2015, row2021, baseRow]
            ["Movie".data] ["Not Rated".data] 2010 2021
          = [row2015, row2021] := by
  exact ⟨mem_filtered_df, by decide⟩

/-- C4: in every loaded table, `year_added` and `month_added` equal the
calendar year and month of `date_added` whenever it is present, and are
absent whenever it is absent (including an unparsable cell coerced to
absent). -/
theorem year_month_added_derived :
    ∀ (raws : List RawRow) (r : Row), r ∈ loadedRows raws →
      (∀ d, r.date_added = some d →
          r.year_added = some d.year ∧ r.month_added = some d.month)
        ∧ (r.date_added = none → r.year_added = none ∧ r.month_added = none) := by
  intro raws r hr
  rw [loadedRows, List.mem_map] at hr
  obtain ⟨raw, -, rfl⟩ := hr
  constructor
  · intro d hd
    simp only [cleanRow] at hd ⊢
    rw [hd]
    exact ⟨rfl, rfl⟩
  · intro hd
    simp only [cleanRow] at hd ⊢
    rw [hd]
    exact ⟨rfl, rfl⟩

/-- Witness for C4 on a two-row load: one parsable `date_added` cell and one
unparsable cell coerced to absent. -/
theorem year_month_added_derived_witness :
    cleanRow rawSept ∈ loadedRows [rawSept, rawGarbage]
      ∧ (cleanRow rawSept).date_added = some ⟨2021, 9, 25⟩
      ∧ (cleanRow rawSept).year_added = some 2021
      ∧ (cleanRow rawSept).month_added = some 9
      ∧ (cleanRow rawGarbage).date_added = none
      ∧ (cleanRow rawGarbage).year_added = none
      ∧ (cleanRow rawGarbage).month_added = none := by
  have h1 := year_month_added_derived [rawSept, rawGarbage] (cleanRow rawSept) (by decide)
  have h2 := year_month_added_derived [rawSept, rawGarbage] (cleanRow rawGarbage) (by decide)
  have hd : (cleanRow rawSept).date_added = some ⟨2021, 9, 25⟩ := by decide
  have hn : (cleanRow rawGarbage).date_added = none := by decide
  exact ⟨by decide, hd, (h1.1 _ hd).1, (h1.1 _ hd).2, hn, (h2.2 hn).1, (h2.2 hn).2⟩

/-- C5: an empty content-type selection or an empty rating selection yields
an empty view, whatever the other parameters are. -/
theorem empty_selection_empty_view :
    (∀ (df : List Row) (rt : List Str) (ylo yhi : Int), filtered_df df [] rt ylo yhi = [])
      ∧ (∀ (df : List Row) (ct : List Str) (ylo yhi : Int),
          filtered_df df ct [] ylo yhi = []) := by
  constructor <;>
    · intro df s ylo yhi
      simp [filtered_df, List.filter_eq_nil_iff]

/-- C6 counterexample: `str.contains` compiles the query as a regular
expression (default `regex=True`), so the non-empty query "." keeps a row
none of whose searched fields contains a literal dot — the wildcard matches
any character — contradicting the literal case-insensitive-substring
reading for that query. -/
theorem detailed_search_regex_counterexample :
    rowSmith ∈ detailed_df [rowSmith] ".".data "All".data "All".data
      ∧ ¬ciMatch rowSmith.title ".".data
      ∧ ¬ciMatch rowSmith.director ".".data
      ∧ ¬ciMatch rowSmith.cast ".".data := by
  refine ⟨by decide, ?_, ?_, ?_⟩
  · rintro ⟨s, hs, hinf⟩
    have hs2 : "Concussion".data = s :=
      Option.some.inj (show some "Concussion".data = some s from hs)
    rw [← hs2] at hinf
    exact absurd hinf (by decide)
  · rintro ⟨s, hs, -⟩
    exact Option.noConfusion (show (none : Option Str) = some s from hs)
  · rintro ⟨s, hs, hinf⟩
    have hs2 : "John Smith, Jane Doe".data = s :=
      Option.some.inj (show some "John Smith, Jane Doe".data = some s from hs)
    rw [← hs2] at hinf
    exact absurd hinf (by decide)

/-- C6 (amended): with a non-empty query free of regex metacharacters — so
that the default regex compilation of `str.contains` treats it as literal
text — and the genre/country selectors on "All", the detail search keeps
exactly the rows whose title OR director OR cast contains the query as a
case-insensitive substring; a row whose three searched fields are all
absent is excluded (absent values never match); and the cell
"John Smith, Jane Doe" matches the query "smith". -/
theorem detailed_search_spec :
    (∀ (view : List Row) (q : Str) (r : Row), q ≠ [] → plainQuery q = true →
        (r ∈ detailed_df view q "All".data "All".data ↔
          r ∈ view ∧ (ciMatch r.title q ∨ ciMatch r.director q ∨ ciMatch r.cast q)))
      ∧ (∀ (view : List Row) (q : Str) (r : Row), q ≠ [] → plainQuery q = true →
          r.title = none → r.director = none → r.cast = none →
            r ∉ detailed_df view q "All".data "All".data)
      ∧ str_contains_ci (some "John Smith, Jane Doe".data) "smith".data = true := by
  refine ⟨fun view q r hq hp => mem_detailed_df_search view q hq hp r, ?_, by decide⟩
  intro view q r hq hp h1 h2 h3 hmem
  rcases (mem_detailed_df_search view q hq hp r).mp hmem with ⟨-, hm⟩
  rcases hm with ⟨s, hs, -⟩ | ⟨s, hs, -⟩ | ⟨s, hs, -⟩ <;> simp_all

/-- Witness for C6: "smith" is metacharacter-free, and the row whose cast is
"John Smith, Jane Doe" is kept by the search for it. -/
theorem detailed_search_spec_witness :
    rowSmith ∈ detailed_df [rowSmith] "smith".data "All".data "All".data :=
  (detailed_search_spec.1 [rowSmith] "smith".data rowSmith (by decide) (by decide)).mpr
    ⟨List.mem_cons_self _ _,
      Or.inr (Or.inr ⟨"John Smith, Jane Doe".data, rfl, by decide⟩)⟩

/-- C7: for every month in the pivot's index domain and year in its column
domain, a combination matched by no rows is still present in the pivot as
an explicit zero cell (the `fillna(0)` of the month × year cross product),
never omitted. -/
theorem heatmap_pivot_zero_fill :
    ∀ (view : List Row) (m y : Nat), m ∈ monthsOf view → y ∈ yearsOf view →
      comboCount view y m = 0 → pivotLookup view m y = some 0 := by
  intro view m y hm hy hc
  rw [pivotLookup_eq view m y hm hy]
  have hnone : pivotCell view m y = none := by
    have h := List.count_eq_zero.mp hc
    simp [pivotCell, h]
  rw [hnone]
  rfl

/-- Witness for C7: with additions in (Jan, 2020) and (Feb, 2021) only, the
empty combination (Jan, 2021) is an explicit zero cell of the pivot. -/
theorem heatmap_pivot_zero_fill_witness :
    pivotLookup [rowJan2020, rowFeb2021] 1 2021 = some 0 :=
  heatmap_pivot_zero_fill [rowJan2020, rowFeb2021] 1 2021 (by decide) (by decide)
    (by decide)

/-- C8: filtering is idempotent — re-applying the same parameters to an
already-filtered view returns the same row set — and the filtered view is a
sublist of the catalog (the catalog itself is never modified). -/
theorem filtered_df_idempotent :
    ∀ (df : List Row) (ct rt : List Str) (ylo yhi : Int),
      filtered_df (filtered_df df ct rt ylo yhi) ct rt ylo yhi =
          filtered_df df ct rt ylo yhi
        ∧ List.Sublist (filtered_df df ct rt ylo yhi) df := by
  intro df ct rt ylo yhi
  unfold filtered_df
  refine ⟨?_, List.filter_sublist df⟩
  rw [List.filter_filter]
  simp only [Bool.and_self]

/-- C9: the country tally skips every cell that is exactly the sentinel
"Unknown" (as a missing country is filled to at load), so such a row
contributes no tokens, and every token in the tally comes from a
non-"Unknown" cell. -/
theorem country_counts_skip_unknown :
    (∀ (r : Row) (view : List Row), r.country = "Unknown".data →
        all_countries (r :: view) = all_countries view)
      ∧ (∀ raw : RawRow, raw.country = none → (cleanRow raw).country = "Unknown".data)
      ∧ (∀ (view : List Row) (t : Str), t ∈ all_countries view →
          ∃ r, r ∈ view ∧ r.country ≠ "Unknown".data ∧
            t ∈ (splitOnChar ',' r.country).map trimChars) := by
  refine ⟨?_, ?_, ?_⟩
  · intro r view h
    simp [all_countries, h]
  · intro raw h
    simp [cleanRow, h]
  · intro view t ht
    simp only [all_countries, List.mem_flatMap, List.mem_map] at ht
    obtain ⟨c, ⟨r, hr, rfl⟩, htc⟩ := ht
    by_cases hU : r.country = "Unknown".data
    · rw [if_neg (not_not_intro hU)] at htc
      exact absurd htc (List.not_mem_nil t)
    · rw [if_pos hU] at htc
      exact ⟨r, hr, hU, htc⟩

/-- Witness for C9: a row whose country is the sentinel contributes nothing
to the tally, and a raw record without a country is filled to the
sentinel. -/
theorem country_counts_skip_unknown_witness :
    all_countries (baseRow :: [rowIndia]) = all_countries [rowIndia]
      ∧ (cleanRow baseRaw).country = "Unknown".data :=
  ⟨country_counts_skip_unknown.1 baseRow [rowIndia] (by decide),
    country_counts_skip_unknown.2.1 baseRaw (by decide)⟩

/-- C10: the detail browser renders at most the first 100 rows of the search
result, in view order, while the result-count metrics report the full size
of the result set. -/
theorem detail_cards_truncation :
    ∀ (view : List Row) (q g c : Str),
      (displayedCards (detailed_df view q g c)).length =
          min 100 (detailed_df view q g c).length
        ∧ List.IsPrefix (displayedCards (detailed_df view q g c)) (detailed_df view q g c)
        ∧ filteredResultsMetric (detailed_df view q g c) =
            (detailed_df view q g c).length := by
  intro view q g c
  exact ⟨List.length_take 100 _,
    ⟨(detailed_df view q g c).drop 100, List.take_append_drop 100 _⟩, rfl⟩
